import Mathlib

/-!
Shallow embedding of `rsack/bugs.py` (the Bugs download pipeline) and proofs
about it.  Pure string/byte manipulations of the Python source are translated
into executable Lean functions; filesystem and HTTP effects are made explicit:
the filesystem is an association list from path to byte content, and an HTTP
response is a record of final URL, status code and body bytes.
-/

namespace Bugs

/-! ### String helpers mirroring the Python primitives used by the source -/

/-- Fuel-driven worker for `pyReplace`: replaces every occurrence of `old`
(non-empty) in the character list, scanning left to right. -/
def replaceGo (old new : List Char) : Nat → List Char → List Char
  | _, [] => []
  | 0, s => s
  | fuel + 1, c :: cs =>
    if old.isPrefixOf (c :: cs) then
      new ++ replaceGo old new fuel (List.drop old.length (c :: cs))
    else
      c :: replaceGo old new fuel cs

/-- Python `s.replace(old, new)` for a non-empty pattern `old`: every
occurrence is replaced, scanning left to right.  (The source only calls
`replace` with the non-empty patterns `".temp"`, `"＃"` and `"\x7b...\x7d"`
template keys, so the empty-pattern behaviour of Python is irrelevant and
left as the identity.) -/
def pyReplace (s old new : String) : String :=
  if old.data.isEmpty then s
  else ⟨replaceGo old.data new.data s.data.length s.data⟩

/-- Split a character list on a separator character (Python
`str.split(sep)` for a one-character separator). -/
def splitOnChar (sep : Char) : List Char → List (List Char)
  | [] => [[]]
  | c :: cs =>
    match splitOnChar sep cs with
    | [] => [[c]]
    | r :: rs => if c = sep then [] :: r :: rs else (c :: r) :: rs

/-- Python `str.splitlines()` restricted to `'\n'` terminators: like
splitting on `'\n'`, except that the empty string gives no lines and a
trailing newline does not produce a final empty line. -/
def splitlines (s : String) : List String :=
  if s.data.isEmpty then []
  else
    let parts := (splitOnChar '\n' s.data).map (fun l => (⟨l⟩ : String))
    match parts.getLast? with
    | some "" => parts.dropLast
    | _ => parts

/-- Python `sep.join(xs)`. -/
def joinWith (sep : String) : List String → String
  | [] => ""
  | [x] => x
  | x :: y :: xs => x ++ sep ++ joinWith sep (y :: xs)

/-- Concatenation of a list of lists (used to relate chunked writes to the
whole body). -/
def concatAll : List (List α) → List α
  | [] => []
  | c :: cs => c ++ concatAll cs

/-- Fuel-driven worker for `chunksOf`. -/
def chunksGo (n : Nat) : Nat → List α → List (List α)
  | _, [] => []
  | 0, l => [l]
  | fuel + 1, c :: cs => (c :: cs).take n :: chunksGo n fuel ((c :: cs).drop n)

/-- Cut a list into consecutive chunks of at most `n` elements (the shape of
`response.iter_content(n)` on a fully buffered body). -/
def chunksOf (n : Nat) (l : List α) : List (List α) :=
  chunksGo n l.length l

/-! ### Filesystem model -/

/-- File contents: a byte sequence. -/
abbrev Bytes := List Nat

/-- The filesystem relevant to the pipeline: a finite map from path to byte
content, represented as an association list (most recent write first). -/
abbrev Fs := List (String × Bytes)

/-- Look up the content stored at path `p`. -/
def Fs.lookup (fs : Fs) (p : String) : Option Bytes :=
  (fs.find? (fun e => e.1 = p)).map (fun e => e.2)

/-- `os.path.exists`. -/
def Fs.existsPath (fs : Fs) (p : String) : Bool :=
  (Fs.lookup fs p).isSome

/-- Write (create or overwrite) the file at `p` with content `b`. -/
def Fs.write (fs : Fs) (p : String) (b : Bytes) : Fs :=
  (p, b) :: fs.filter (fun e => ¬ e.1 = p)

/-- Remove the file at `p` if present. -/
def Fs.remove (fs : Fs) (p : String) : Fs :=
  fs.filter (fun e => ¬ e.1 = p)

/-- Appending write: `open(p, 'ab')` followed by writing `b` — the existing
content is kept and `b` is appended; the file is created when absent. -/
def Fs.append (fs : Fs) (p : String) (b : Bytes) : Fs :=
  Fs.write fs p (((Fs.lookup fs p).getD []) ++ b)

/-- `os.rename(src, dst)`: moves the content at `src` to `dst` (no-op when
`src` is absent, where Python would raise). -/
def Fs.rename (fs : Fs) (src dst : String) : Fs :=
  match Fs.lookup fs src with
  | none => fs
  | some b => Fs.write (Fs.remove fs src) dst b

/-- `os.path.getsize`. -/
def Fs.size (fs : Fs) (p : String) : Nat :=
  ((Fs.lookup fs p).getD []).length

/-- The write loop of `_download`: `open(file_path, 'ab')` (which creates the
file when absent) followed by `for chunk in r.iter_content(32*1024): if
chunk: f.write(chunk)`. -/
def stream_write (fs : Fs) (p : String) (cs : List Bytes) : Fs :=
  cs.foldl (fun a c => if c.isEmpty then a else Fs.append a p c) (Fs.append fs p [])

/-! ### Delivered-format classification (`_download`, lines 148–153) -/

/-- Delivered audio container, as classified from the final redirected URL. -/
inductive Quality
  | mp3
  | m4a
  | flac
  deriving DecidableEq, Repr

/-- Python `url.split("?")[0]`: the part of the URL before the first `'?'`. -/
def beforeQuery (url : String) : String :=
  ⟨url.data.takeWhile (fun c => ¬ c = '?')⟩

/-- Python `s.endswith(suffix)`. -/
def endsWithS (s suffix : String) : Bool :=
  suffix.data.isSuffixOf s.data

/-- `r.url.split("?")[0].endswith(".mp3") / (".m4a") / default flac`. -/
def classify (url : String) : Quality :=
  if endsWithS (beforeQuery url) ".mp3" then Quality.mp3
  else if endsWithS (beforeQuery url) ".m4a" then Quality.m4a
  else Quality.flac

/-- The extension string the code renames to for each classified quality. -/
def extOf : Quality → String
  | Quality.mp3 => ".mp3"
  | Quality.m4a => ".m4a"
  | Quality.flac => ".flac"

/-! ### Lyrics fetching and timed-lyrics formatting (`_get_lyrics`) -/

/-- The value of a digit character. -/
def digitVal (c : Char) : Option Nat :=
  if c.isDigit then some (c.toNat - 48) else none

/-- Read a (possibly empty) digit string as a number; `none` on a non-digit. -/
def digitsVal (l : List Char) : Option Nat :=
  l.foldl (fun acc c => acc.bind (fun n => (digitVal c).map (fun d => n * 10 + d))) (some 0)

/-- `round(float(a), 2)` on a non-negative decimal timestamp string, returned
in centiseconds.  Exact for inputs with at most two fractional digits (the
form the endpoint produces and the spec example uses); longer fractions are
truncated to two digits, standing in for the float rounding of the source.
`none` models the `ValueError` that Python `float` raises on a malformed
string. -/
def parseCS (s : String) : Option Nat :=
  match splitOnChar '.' s.data with
  | [i] =>
    if i.isEmpty then none else (digitsVal i).map (fun n => n * 100)
  | [i, f] =>
    if i.isEmpty && f.isEmpty then none
    else
      let fr := f.take 2 ++ List.replicate (2 - f.length) '0'
      (digitsVal i).bind (fun iv => (digitsVal fr).map (fun fv => iv * 100 + fv))
  | _ => none

/-- Two-digit zero padding. -/
def pad2 (n : Nat) : String :=
  if n < 10 then "0" ++ toString n else toString n

/-- `datetime.fromtimestamp(t).strftime("%M:%S.%f")[0:-4]` on `t` given in
centiseconds: minutes-of-hour, seconds and centiseconds, each two digits.
`fromtimestamp` is modelled at a whole-hour UTC offset, where the epoch
timestamp's minute/second fields are `(t div 60) mod 60` and `t mod 60`. -/
def fmtTimestamp (cs : Nat) : String :=
  pad2 (cs / 6000 % 60) ++ ":" ++ pad2 (cs / 100 % 60) ++ "." ++ pad2 (cs % 100)

/-- One timed-lyrics line: `a, b = line.split('|')` then
`f"[\x7bts\x7d]\x7bb\x7d"`.  `none` models the unpacking `ValueError` on a
line that does not have exactly two `'|'`-separated fields. -/
def formatLine (l : List Char) : Option String :=
  match splitOnChar '|' l with
  | [a, b] => (parseCS ⟨a⟩).map (fun cs => "[" ++ fmtTimestamp cs ++ "]" ++ (⟨b⟩ : String))
  | _ => none

/-- Timed-lyrics reformatting (`_get_lyrics`, lines 292–295): replace the
separator `"＃"` by newlines, split into lines, format each line's timestamp
and rejoin with newlines.  `none` models a crash on a malformed line. -/
def formatTimedLyrics (blob : String) : Option String :=
  let lines := splitlines (pyReplace blob "＃" "\n")
  ((lines.map (fun s => s.data)).mapM formatLine).map (joinWith "\n")

/-- The track's `lyrics_tp` field when non-null: `'T'` (timed available) or
`'N'` (normal/untimed only). -/
inductive LyricsFlag
  | T
  | N
  deriving DecidableEq, Repr

/-- Which lyrics endpoint a `_get_lyrics` call fetches. -/
inductive Endpoint
  | timed
  | untimed
  deriving DecidableEq, Repr

/-- Result of `_get_lyrics`: the endpoint fetched (if any) and the returned
lyrics string (`none` models a crash while formatting timed lyrics). -/
structure LyricsResult where
  endpoint : Option Endpoint
  lyrics : Option String
  deriving DecidableEq, Repr

/-- `_get_lyrics` (lines 287–305).  `lyrics_tp` is the track's flag
(`none` models Python `None`); `timed_pref` is `settings['timed_lyrics']`;
`timedBody`/`untimedBody` are the `lyrics` fields of the two endpoints'
JSON responses.  Python truthiness of `lyrics_tp` is `Option.isSome`. -/
def get_lyrics (lyrics_tp : Option LyricsFlag) (timed_pref : Bool)
    (timedBody untimedBody : String) : LyricsResult :=
  if lyrics_tp.isSome && timed_pref then
    { endpoint := some Endpoint.timed, lyrics := formatTimedLyrics timedBody }
  else if !lyrics_tp.isSome || !timed_pref then
    { endpoint := some Endpoint.untimed
      lyrics := if lyrics_tp.isNone then some "" else some untimedBody }
  else
    { endpoint := none, lyrics := some "" }

/-! ### The per-track download pipeline (`_download`) -/

/-- An HTTP response to the track request: final URL after redirects, status
code, and the (streamed) body bytes. -/
structure Response where
  url : String
  status : Nat
  content : Bytes
  deriving DecidableEq, Repr

/-- The byte-range request issued for a track: the track id and the start
offset carried in the `Range: bytes=offset-` header. -/
structure RangeRequest where
  track_id : Nat
  offset : Nat
  deriving DecidableEq, Repr

/-- Observable outcome of `_download` for one track: resulting filesystem,
whether the lossless warning was logged, the range request issued (if any),
and whether the body was written, the file renamed (to which path), and the
tagger invoked. -/
structure DlResult where
  fs : Fs
  warned : Bool
  request : Option RangeRequest
  wrote : Bool
  renamed : Option String
  tagged : Bool
  deriving DecidableEq, Repr

/-- `_exist_check` (lines 185–200): a finalized `.mp3` or `.flac` sibling of
the `.temp` path short-circuits the track. -/
def exist_check (fs : Fs) (file_path : String) : Bool :=
  if Fs.existsPath fs (pyReplace file_path ".temp" ".mp3") then true
  else if Fs.existsPath fs (pyReplace file_path ".temp" ".flac") then true
  else false

/-- `_return_bytes` (lines 168–183): size of the existing partial file, else 0. -/
def return_bytes (fs : Fs) (file_path : String) : Nat :=
  if Fs.existsPath fs file_path then Fs.size fs file_path else 0

/-- `_download` (lines 119–166), from the lossless warning through the write,
rename and tag hand-off.  `is_flac_str_premium` is the track's API flag,
`client_premium` is `self.client.premium`, `temp_path` the computed `.temp`
path, and `resp` the response the track request would receive. -/
def download (is_flac_str_premium client_premium : Bool) (fs : Fs)
    (temp_path : String) (track_id : Nat) (resp : Response) : DlResult :=
  let warned := is_flac_str_premium && !client_premium
  if exist_check fs temp_path then
    ⟨fs, warned, none, false, none, false⟩
  else
    let req : RangeRequest := ⟨track_id, return_bytes fs temp_path⟩
    let quality := classify resp.url
    if ¬ quality = Quality.m4a then
      if resp.status = 404 then
        ⟨fs, warned, some req, false, none, false⟩
      else
        let fs1 := stream_write fs temp_path (chunksOf 32768 resp.content)
        let c_path := pyReplace temp_path ".temp" (extOf quality)
        ⟨Fs.rename fs1 temp_path c_path, warned, some req, true, some c_path, true⟩
    else
      ⟨fs, warned, some req, false, none, false⟩

/-- One track job of an album run: the track's `.temp` path, id, premium
flag, and the response its request would receive. -/
structure TrackJob where
  temp_path : String
  track_id : Nat
  is_flac_str_premium : Bool
  resp : Response
  deriving DecidableEq, Repr

/-- The album track loop (`_album`, line 68–69): each track is processed by
`_download`.  The workers touch disjoint paths, so the pool is modelled as
sequential execution in submission order. -/
def runAlbum (client_premium : Bool) (fs : Fs) : List TrackJob → Fs × List DlResult
  | [] => (fs, [])
  | j :: js =>
    let r := download j.is_flac_str_premium client_premium fs j.temp_path j.track_id j.resp
    let rest := runAlbum client_premium r.fs js
    (rest.1, r :: rest.2)

/-! ### Cover-art download (`_download_cover`) -/

/-- `os.path.join` for the relative names the source joins. -/
def pathJoin (a b : String) : String := a ++ "/" ++ b

/-- `_download_cover` (lines 202–212).  Returns the filesystem and whether a
request was issued.  The source writes `r.content` unconditionally: the line
`r.raise_for_status` only mentions the method and never calls it, so no
status check happens. -/
def download_cover (fs : Fs) (album_path : String) (resp : Response) : Fs × Bool :=
  let cover_path := pathJoin album_path "cover.jpg"
  if Fs.existsPath fs cover_path then (fs, false)
  else (Fs.write fs cover_path resp.content, true)

/-! ### Path planning (`_template`, `_album_path`) and the disc total -/

/-- The album fields `_template` reads from the API response. -/
structure Album where
  artist_disp_nm : String
  title : String
  title_local : String
  release_ymd : String
  release_local_ymd : String
  album_id : Nat
  artist_id : Nat
  album_tp : String
  deriving DecidableEq, Repr

/-- `_template` (lines 71–86): substitute each placeholder key, in the
source's dictionary order, by its sanitized value.  `san` models
`rsack.utils.sanitize` (not under `src/`; the spec only says it makes a
string filesystem-safe, so it stays an abstract parameter), and `fd` models
`rsack.utils._format_date` likewise. -/
def renderTemplate (tmpl : String) (a : Album) (san fd : String → String) : String :=
  let t := pyReplace tmpl "{artist}" (san a.artist_disp_nm)
  let t := pyReplace t "{title}" (san a.title)
  let t := pyReplace t "{local_title}" (san a.title_local)
  let t := pyReplace t "{date}" (san (fd a.release_ymd))
  let t := pyReplace t "{local_date}" (san (fd a.release_local_ymd))
  let t := pyReplace t "{album_id}" (san (toString a.album_id))
  let t := pyReplace t "{artist_id}" (san (toString a.artist_id))
  pyReplace t "{type}" (san a.album_tp)

/-- Outcome of the album-path creation of `_album_path` (lines 89–107):
the (possibly mutated) album artist name, the value of `self.album_path`
after the procedure, whether the overflow fallback retried, and whether the
directory ended up existing/created. -/
structure PathOutcome where
  artist : String
  album_path : String
  retried : Bool
  created_ok : Bool
  deriving DecidableEq, Repr

/-- `_album_path` (lines 89–107), up to the disc subfolders.  `limit` models
the OS path limit: `os.makedirs(p)` raises `OSError` with `errno == 36`
exactly when `p.length > limit`.  `ex` models `os.path.exists` at the time
of the call.  On overflow with the artist name strictly longer than the
title, the source mutates `self.album['artist_disp_nm']` but leaves
`self.album_path` unchanged; in the title branch it resets `self.album_path`
to `settings['path'] + "EDIT ME"`; either way it retries `makedirs` once on
the current `self.album_path`. -/
def album_path_proc (limit : Nat) (ex : String → Bool) (settingsPath tmpl : String)
    (a : Album) (san fd : String → String) : PathOutcome :=
  let p0 := settingsPath ++ renderTemplate tmpl a san fd
  if ex p0 then ⟨a.artist_disp_nm, p0, false, true⟩
  else if p0.length ≤ limit then ⟨a.artist_disp_nm, p0, false, true⟩
  else if a.artist_disp_nm.length > a.title.length then
    -- artist branch: the album dict is mutated, the path variable is not
    if ex p0 then ⟨"Various Artists", p0, false, true⟩
    else ⟨"Various Artists", p0, true, decide (p0.length ≤ limit)⟩
  else
    let p1 := settingsPath ++ "EDIT ME"
    if ex p1 then ⟨a.artist_disp_nm, p1, false, true⟩
    else ⟨a.artist_disp_nm, p1, true, decide (p1.length ≤ limit)⟩

/-- The per-track API fields the disc-total derivation reads. -/
structure ApiTrack where
  disc_id : Nat
  deriving DecidableEq, Repr

/-- `_album` line 62: `self.album['disc_total'] =
self.album['tracks'][-1]['disc_id']` — the disc id of the *last* track
(0 as a placeholder for the empty list, where Python would raise). -/
def disc_total (tracks : List ApiTrack) : Nat :=
  ((tracks.getLast?).map ApiTrack.disc_id).getD 0

/-- The quantity the spec's words describe: the maximum disc index across
the album's tracks. -/
def maxDiscIndex (tracks : List ApiTrack) : Nat :=
  tracks.foldr (fun t m => max t.disc_id m) 0

/-! ### Helper lemmas -/

theorem Fs.lookup_write_self (fs : Fs) (p : String) (b : Bytes) :
    Fs.lookup (Fs.write fs p b) p = some b := by
  simp [Fs.lookup, Fs.write]

theorem Fs.lookup_append_self (fs : Fs) (p : String) (b : Bytes) :
    Fs.lookup (Fs.append fs p b) p = some ((Fs.lookup fs p).getD [] ++ b) := by
  simp [Fs.append, Fs.lookup_write_self]

theorem Fs.lookup_rename_dst (fs : Fs) (src dst : String) (b : Bytes)
    (h : Fs.lookup fs src = some b) :
    Fs.lookup (Fs.rename fs src dst) dst = some b := by
  unfold Fs.rename
  rw [h]
  exact Fs.lookup_write_self ..

theorem foldl_append_lookup (p : String) (cs : List Bytes) :
    ∀ (fs : Fs) (b : Bytes), Fs.lookup fs p = some b →
      Fs.lookup (cs.foldl (fun a c => if c.isEmpty then a else Fs.append a p c) fs) p
        = some (b ++ concatAll cs) := by
  induction cs with
  | nil =>
    intro fs b h
    simpa [concatAll] using h
  | cons c cs ih =>
    intro fs b h
    rw [List.foldl_cons]
    by_cases hc : c.isEmpty
    · have hc' : c = [] := List.isEmpty_iff.mp hc
      rw [if_pos hc, ih fs b h, hc']
      simp [concatAll]
    · rw [if_neg hc]
      have h2 : Fs.lookup (Fs.append fs p c) p = some (b ++ c) := by
        rw [Fs.lookup_append_self, h]
        rfl
      rw [ih _ _ h2]
      simp [concatAll]

theorem stream_write_lookup (fs : Fs) (p : String) (cs : List Bytes) :
    Fs.lookup (stream_write fs p cs) p
      = some ((Fs.lookup fs p).getD [] ++ concatAll cs) := by
  unfold stream_write
  apply foldl_append_lookup
  rw [Fs.lookup_append_self]
  simp

theorem chunksGo_concat (n : Nat) (hn : 1 ≤ n) :
    ∀ (fuel : Nat) (l : List α), l.length ≤ fuel → concatAll (chunksGo n fuel l) = l := by
  intro fuel
  induction fuel with
  | zero =>
    intro l hl
    cases l with
    | nil => rfl
    | cons c cs => simp at hl
  | succ f ih =>
    intro l hl
    cases l with
    | nil => rfl
    | cons c cs =>
      have hd : ((c :: cs).drop n).length ≤ f := by
        simp only [List.length_drop, List.length_cons]
        simp only [List.length_cons] at hl
        omega
      calc concatAll (chunksGo n (f + 1) (c :: cs))
          = (c :: cs).take n ++ concatAll (chunksGo n f ((c :: cs).drop n)) := rfl
        _ = (c :: cs).take n ++ (c :: cs).drop n := by rw [ih _ hd]
        _ = c :: cs := List.take_append_drop n (c :: cs)

theorem chunksOf_concat (n : Nat) (hn : 1 ≤ n) (l : List α) :
    concatAll (chunksOf n l) = l :=
  chunksGo_concat n hn l.length l le_rfl

theorem return_bytes_eq (fs : Fs) (p : String) :
    return_bytes fs p = ((Fs.lookup fs p).map List.length).getD 0 := by
  unfold return_bytes Fs.existsPath Fs.size
  cases h : Fs.lookup fs p <;> simp [h]

theorem download_skip (fl prem : Bool) (fs : Fs) (p : String) (tid : Nat) (resp : Response)
    (h : exist_check fs p = true) :
    download fl prem fs p tid resp = ⟨fs, fl && !prem, none, false, none, false⟩ := by
  unfold download
  rw [if_pos h]

theorem takeWhile_all (p : α → Bool) :
    ∀ (l : List α), (∀ c ∈ l, p c = true) → l.takeWhile p = l := by
  intro l
  induction l with
  | nil => intro _; rfl
  | cons a t ih =>
    intro h
    rw [List.takeWhile_cons, h a (List.mem_cons_self a t),
      ih (fun c hc => h c (List.mem_cons_of_mem a hc))]
    simp

theorem takeWhile_append_stop (p : α → Bool) (x : α) (l₂ : List α) (hx : p x = false) :
    ∀ (l₁ : List α), (∀ c ∈ l₁, p c = true) → (l₁ ++ x :: l₂).takeWhile p = l₁ := by
  intro l₁
  induction l₁ with
  | nil =>
    intro _
    simp [List.takeWhile_cons, hx]
  | cons a t ih =>
    intro h
    rw [List.cons_append, List.takeWhile_cons, h a (List.mem_cons_self a t)]
    simp only [if_true]
    rw [ih (fun c hc => h c (List.mem_cons_of_mem a hc))]

theorem getLastD_eq_foldr_max :
    ∀ (l : List Nat), List.Pairwise (· ≤ ·) l → ¬ l = [] →
      (l.getLast?).getD 0 = l.foldr max 0 := by
  intro l
  induction l with
  | nil => exact fun _ h => absurd rfl h
  | cons a t ih =>
    intro hp _
    cases t with
    | nil => simp
    | cons b t' =>
      have h1 := (List.pairwise_cons.mp hp).1
      have h2 := (List.pairwise_cons.mp hp).2
      rw [List.getLast?_cons_cons, ih h2 (by simp), List.foldr_cons]
      have hb : b ≤ List.foldr max 0 (b :: t') := by
        rw [List.foldr_cons]
        exact le_max_left b _
      exact (Nat.max_eq_right (le_trans (h1 b (List.mem_cons_self b t')) hb)).symm

/-! ### Claims -/

/-- A concrete album whose artist name (40 characters) is strictly longer
than its title, used to exercise the path-overflow fallback. -/
def demoAlbum : Album :=
  ⟨"AAAAAAAAAAAAAAAAAAAAAAAAAAAAAAAAAAAAAAAA", "T", "TL", "20200101", "20200101", 1, 2, "EP"⟩

/-- `demoAlbum` with the artist name replaced by the collective-artist
placeholder, as the fallback intends. -/
def demoAlbumVA : Album :=
  ⟨"Various Artists", "T", "TL", "20200101", "20200101", 1, 2, "EP"⟩

/-- C1: with an OS limit of 30, an empty filesystem, settings path `"/m/"`,
template `"\x7bartist\x7d - \x7btitle\x7d"` and an artist name longer than
the title, the fallback does substitute `"Various Artists"` into the album
dict, but the retried creation still uses the original overlong path (which
is over the limit, so it fails), even though the path re-rendered from the
substituted artist name would have been within the limit.  This contradicts
the claim (and the source's own comment that the artist name is changed "to
try and reduce length"): the retry does not use a path derived from the
substituted artist name. -/
theorem claim1_code_bug :
    (album_path_proc 30 (fun _ => false) "/m/" "{artist} - {title}" demoAlbum id id).created_ok
        = false
    ∧ (album_path_proc 30 (fun _ => false) "/m/" "{artist} - {title}" demoAlbum id id).retried
        = true
    ∧ (album_path_proc 30 (fun _ => false) "/m/" "{artist} - {title}" demoAlbum id id).album_path
        = "/m/AAAAAAAAAAAAAAAAAAAAAAAAAAAAAAAAAAAAAAAA - T"
    ∧ (album_path_proc 30 (fun _ => false) "/m/" "{artist} - {title}" demoAlbum id id).artist
        = "Various Artists"
    ∧ ("/m/" ++ renderTemplate "{artist} - {title}" demoAlbumVA id id).length ≤ 30 := by
  decide

/-- C2 counterexample: for the track list with disc ids `[2, 1]` the derived
disc total is the last track's disc id `1`, not the maximum `2`. -/
theorem claim2_counterexample :
    disc_total [⟨2⟩, ⟨1⟩] = 1 ∧ maxDiscIndex [⟨2⟩, ⟨1⟩] = 2
    ∧ ¬ disc_total [⟨2⟩, ⟨1⟩] = maxDiscIndex [⟨2⟩, ⟨1⟩] := by
  decide

/-- C2 (amended): the derived disc total is the disc id of the *last* track;
it equals the maximum disc index across tracks when the track list's disc
ids are nondecreasing, not for arbitrary orderings. -/
theorem claim2_disc_total_of_sorted (tracks : List ApiTrack)
    (hne : ¬ tracks = [])
    (hsorted : List.Pairwise (· ≤ ·) (tracks.map ApiTrack.disc_id)) :
    disc_total tracks = maxDiscIndex tracks := by
  have h1 : disc_total tracks = ((tracks.map ApiTrack.disc_id).getLast?).getD 0 := by
    unfold disc_total
    rw [List.getLast?_map]
  have h2 : maxDiscIndex tracks = (tracks.map ApiTrack.disc_id).foldr max 0 := by
    unfold maxDiscIndex
    rw [List.foldr_map]
  rw [h1, h2]
  exact getLastD_eq_foldr_max _ hsorted (by simpa using hne)

/-- C2 witness: on the nondecreasing disc ids `[1, 2]` the derived disc
total does equal the maximum disc index. -/
theorem claim2_witness : disc_total [⟨1⟩, ⟨2⟩] = maxDiscIndex [⟨1⟩, ⟨2⟩] :=
  claim2_disc_total_of_sorted [⟨1⟩, ⟨2⟩] (by decide) (by decide)

/-- C3 counterexample: with flag `'N'` (only untimed lyrics available) and a
timed preference, the code does *not* use the untimed endpoint (it fetches
the timed one), contradicting the claim. -/
theorem claim3_counterexample :
    ¬ (get_lyrics (some LyricsFlag.N) true "tb" "ub").endpoint = some Endpoint.untimed := by
  decide

/-- C3 (amended): the timed endpoint is fetched iff the preference is timed
and the flag is non-null — the flag's value (`'T'` vs `'N'`) is never
inspected, so a timed preference fetches the timed endpoint even when only
untimed lyrics are available; otherwise the untimed endpoint is fetched,
and a null flag yields the empty string. -/
theorem claim3_endpoint_choice (pref : Bool) (tb ub : String) :
    (get_lyrics (some LyricsFlag.T) pref tb ub).endpoint
        = (get_lyrics (some LyricsFlag.N) pref tb ub).endpoint
    ∧ (get_lyrics (some LyricsFlag.T) true tb ub).endpoint = some Endpoint.timed
    ∧ (get_lyrics (some LyricsFlag.N) true tb ub).endpoint = some Endpoint.timed
    ∧ (get_lyrics (some LyricsFlag.T) false tb ub).endpoint = some Endpoint.untimed
    ∧ (get_lyrics (some LyricsFlag.N) false tb ub).endpoint = some Endpoint.untimed
    ∧ (get_lyrics none pref tb ub).endpoint = some Endpoint.untimed
    ∧ (get_lyrics none pref tb ub).lyrics = some "" := by
  cases pref <;> exact ⟨rfl, rfl, rfl, rfl, rfl, rfl, rfl⟩

/-- C4 counterexample: with the premium-lossless API flag set and a
non-premium session, the warning fires even though the delivered format is
lossless (the final URL classifies as flac), contradicting "no warning is
emitted when the delivered format is lossless". -/
theorem claim4_counterexample :
    (download true false [] "01. A.temp" 1 ⟨"http://host/x.flac", 200, [7]⟩).warned = true
    ∧ classify "http://host/x.flac" = Quality.flac := by
  decide

/-- C4 (amended): the lossless-unavailable warning is emitted iff the API
indicated premium availability and the client session is not premium; it is
decided before the request from those two flags alone, independent of the
response's redirect URL. -/
theorem claim4_warning_condition (fl prem : Bool) (fs : Fs) (p : String) (tid : Nat)
    (resp : Response) :
    (download fl prem fs p tid resp).warned = (fl && !prem) := by
  simp only [download]
  split
  · rfl
  · split
    · split
      · rfl
      · rfl
    · rfl

/-- C5: when the track is not short-circuited and the response is neither
m4a-classified nor a 404, the range request carries offset = size of the
existing partial file (0 when absent), the streamed body is appended after
the existing partial bytes (never truncating them, in 32KiB chunks), and the
file is renamed to the detected final extension. -/
theorem claim5_resume (fl prem : Bool) (fs : Fs) (p : String) (tid : Nat) (resp : Response)
    (hex : exist_check fs p = false)
    (hq : ¬ classify resp.url = Quality.m4a)
    (hs : ¬ resp.status = 404) :
    (download fl prem fs p tid resp).request
        = some ⟨tid, ((Fs.lookup fs p).map List.length).getD 0⟩
    ∧ (download fl prem fs p tid resp).renamed
        = some (pyReplace p ".temp" (extOf (classify resp.url)))
    ∧ Fs.lookup (download fl prem fs p tid resp).fs
          (pyReplace p ".temp" (extOf (classify resp.url)))
        = some ((Fs.lookup fs p).getD [] ++ resp.content) := by
  have hdl : download fl prem fs p tid resp
      = ⟨Fs.rename (stream_write fs p (chunksOf 32768 resp.content)) p
            (pyReplace p ".temp" (extOf (classify resp.url))),
         fl && !prem, some ⟨tid, return_bytes fs p⟩, true,
         some (pyReplace p ".temp" (extOf (classify resp.url))), true⟩ := by
    simp only [download]
    rw [if_neg (by simp [hex]), if_pos hq, if_neg hs]
  rw [hdl]
  refine ⟨?_, rfl, ?_⟩
  · show some (⟨tid, return_bytes fs p⟩ : RangeRequest) = _
    rw [return_bytes_eq]
  · show Fs.lookup (Fs.rename (stream_write fs p (chunksOf 32768 resp.content)) p
          (pyReplace p ".temp" (extOf (classify resp.url))))
        (pyReplace p ".temp" (extOf (classify resp.url)))
      = some ((Fs.lookup fs p).getD [] ++ resp.content)
    have hsw : Fs.lookup (stream_write fs p (chunksOf 32768 resp.content)) p
        = some ((Fs.lookup fs p).getD [] ++ resp.content) := by
      rw [stream_write_lookup, chunksOf_concat 32768 (by omega)]
    exact Fs.lookup_rename_dst _ _ _ _ hsw

/-- C5 witness: a partial file of 2 bytes resumes at offset 2 and the final
flac file holds the old bytes followed by the streamed bytes. -/
theorem claim5_witness :
    (download false true [("01. A.temp", [1, 2])] "01. A.temp" 5
        ⟨"http://host/x.flac?a=b", 200, [3, 4]⟩).request = some ⟨5, 2⟩
    ∧ Fs.lookup (download false true [("01. A.temp", [1, 2])] "01. A.temp" 5
          ⟨"http://host/x.flac?a=b", 200, [3, 4]⟩).fs "01. A.flac" = some [1, 2, 3, 4] := by
  have h := claim5_resume false true [("01. A.temp", [1, 2])] "01. A.temp" 5
    ⟨"http://host/x.flac?a=b", 200, [3, 4]⟩ (by decide) (by decide) (by decide)
  refine ⟨h.1.trans (by decide), ?_⟩
  have h2 := h.2.2
  rw [show pyReplace "01. A.temp" ".temp"
      (extOf (classify "http://host/x.flac?a=b")) = "01. A.flac" from by decide] at h2
  exact h2.trans (by decide)

/-- C6: when a finalized `.mp3` or `.flac` sibling exists for every track of
the album, the whole run leaves the filesystem unchanged and every track is
skipped with no request, no write, no rename and no tag — the idempotent
second run. -/
theorem claim6_second_run_skips (prem : Bool) (fs : Fs) (jobs : List TrackJob)
    (h : ∀ j ∈ jobs, exist_check fs j.temp_path = true) :
    (runAlbum prem fs jobs).1 = fs
    ∧ ∀ r ∈ (runAlbum prem fs jobs).2,
        r.fs = fs ∧ r.request = none ∧ r.wrote = false ∧ r.renamed = none ∧ r.tagged = false := by
  induction jobs with
  | nil => exact ⟨rfl, fun r hr => absurd hr (List.not_mem_nil r)⟩
  | cons j js ih =>
    have hj := h j (List.mem_cons_self j js)
    have hs := download_skip j.is_flac_str_premium prem fs j.temp_path j.track_id j.resp hj
    have hrest := ih (fun x hx => h x (List.mem_cons_of_mem j hx))
    have hstep : runAlbum prem fs (j :: js)
        = ((runAlbum prem fs js).1,
           (⟨fs, j.is_flac_str_premium && !prem, none, false, none, false⟩ : DlResult)
             :: (runAlbum prem fs js).2) := by
      simp only [runAlbum, hs]
    rw [hstep]
    refine ⟨hrest.1, ?_⟩
    intro r hr
    rcases List.mem_cons.mp hr with h1 | h2
    · subst h1
      exact ⟨rfl, rfl, rfl, rfl, rfl⟩
    · exact hrest.2 r h2

/-- C6 witness: an album whose only track already has a finalized `.mp3`
leaves the filesystem unchanged on a re-run. -/
theorem claim6_witness :
    (runAlbum false [("01. A.mp3", [1])]
        [⟨"01. A.temp", 1, false, ⟨"u", 200, [2]⟩⟩]).1 = [("01. A.mp3", [1])] :=
  (claim6_second_run_skips false [("01. A.mp3", [1])]
    [⟨"01. A.temp", 1, false, ⟨"u", 200, [2]⟩⟩] (by decide)).1

/-- C7: delivered-format classification looks only at the part of the final
URL before the first `'?'` — appending any query string to a query-free URL
does not change the classification — and `.mp3` paths classify as mp3,
`.m4a` as m4a, and anything else (including `.flac?token=x`) as flac. -/
theorem claim7_classification (u q : String) (h : ¬ '?' ∈ u.data) :
    classify (u ++ "?" ++ q) = classify u
    ∧ classify "http://host/a.mp3" = Quality.mp3
    ∧ classify "http://host/a.m4a" = Quality.m4a
    ∧ classify "http://host/a.flac?token=x" = Quality.flac
    ∧ classify "http://host/a.mp3?q=1" = Quality.mp3
    ∧ classify "http://host/a" = Quality.flac := by
  refine ⟨?_, by decide, by decide, by decide, by decide, by decide⟩
  have hd : (u ++ "?" ++ q).data = u.data ++ '?' :: q.data := by
    rw [String.data_append, String.data_append]
    rw [show ("?" : String).data = ['?'] from rfl, List.append_assoc]
    rfl
  have hb1 : beforeQuery (u ++ "?" ++ q) = u := by
    unfold beforeQuery
    rw [hd, takeWhile_append_stop _ '?' q.data (by decide) u.data
      (fun c hc => by simpa using fun (e : c = '?') => h (e ▸ hc))]
  have hb2 : beforeQuery u = u := by
    unfold beforeQuery
    rw [takeWhile_all _ u.data (fun c hc => by simpa using fun (e : c = '?') => h (e ▸ hc))]
  unfold classify
  rw [hb1, hb2]

/-- C7 witness: for the query-free URL `"http://host/a.flac"`, appending the
query `"token=x"` leaves the classification unchanged. -/
theorem claim7_witness :
    classify ("http://host/a.flac" ++ "?" ++ "token=x") = classify "http://host/a.flac" :=
  (claim7_classification "http://host/a.flac" "token=x" (by decide)).1

/-- C8: if the response classifies as m4a or the status is 404, the track
pipeline stops: the filesystem is unchanged, nothing is written, nothing is
renamed, and the tagger is not invoked. -/
theorem claim8_stop_cases (fl prem : Bool) (fs : Fs) (p : String) (tid : Nat) (resp : Response)
    (h : classify resp.url = Quality.m4a ∨ resp.status = 404) :
    (download fl prem fs p tid resp).fs = fs
    ∧ (download fl prem fs p tid resp).wrote = false
    ∧ (download fl prem fs p tid resp).renamed = none
    ∧ (download fl prem fs p tid resp).tagged = false := by
  simp only [download]
  by_cases he : exist_check fs p
  · rw [if_pos he]
    exact ⟨rfl, rfl, rfl, rfl⟩
  · rw [if_neg he]
    rcases h with hq | hs
    · rw [if_neg (fun hc => hc hq)]
      exact ⟨rfl, rfl, rfl, rfl⟩
    · by_cases hq : ¬ classify resp.url = Quality.m4a
      · rw [if_pos hq, if_pos hs]
        exact ⟨rfl, rfl, rfl, rfl⟩
      · rw [if_neg hq]
        exact ⟨rfl, rfl, rfl, rfl⟩

/-- C8 witness: an m4a-redirected response leaves the filesystem unchanged
with no write, rename or tag. -/
theorem claim8_witness :
    (download false true [] "01. A.temp" 1 ⟨"http://host/x.m4a", 200, [1, 2]⟩).fs = []
    ∧ (download false true [] "01. A.temp" 1 ⟨"http://host/x.m4a", 200, [1, 2]⟩).wrote = false
    ∧ (download false true [] "01. A.temp" 1 ⟨"http://host/x.m4a", 200, [1, 2]⟩).renamed = none
    ∧ (download false true [] "01. A.temp" 1 ⟨"http://host/x.m4a", 200, [1, 2]⟩).tagged = false :=
  claim8_stop_cases false true [] "01. A.temp" 1 ⟨"http://host/x.m4a", 200, [1, 2]⟩
    (Or.inl (by decide))

/-- C9: the timed-lyrics blob `"1.5|Hello＃3.25|World"` reformats to
`"[00:01.50]Hello"` and `"[00:03.25]World"` joined by a newline. -/
theorem claim9_timed_format :
    formatTimedLyrics "1.5|Hello＃3.25|World" = some "[00:01.50]Hello\n[00:03.25]World" := by
  decide

/-- C10: if `cover.jpg` exists at the album path the cover download leaves
the filesystem unchanged and issues no request; otherwise the response body
is written to `cover.jpg` unconditionally — the status code (even an HTTP
failure status) is never consulted, so an error body is persisted. -/
theorem claim10_cover (fs : Fs) (album_path : String) (resp : Response) :
    (Fs.existsPath fs (pathJoin album_path "cover.jpg") = true →
        download_cover fs album_path resp = (fs, false))
    ∧ (Fs.existsPath fs (pathJoin album_path "cover.jpg") = false →
        (download_cover fs album_path resp).2 = true
        ∧ Fs.lookup (download_cover fs album_path resp).1 (pathJoin album_path "cover.jpg")
            = some resp.content) := by
  constructor
  · intro h
    simp only [download_cover]
    rw [if_pos h]
  · intro h
    simp only [download_cover]
    rw [if_neg (by simp [h])]
    exact ⟨rfl, Fs.lookup_write_self ..⟩

/-- C10 witness: with an existing cover the filesystem is untouched and no
request is made; on an empty filesystem a status-500 response body is still
persisted as the cover. -/
theorem claim10_witness :
    download_cover [(pathJoin "A" "cover.jpg", [1])] "A" ⟨"u", 500, [9]⟩
        = ([(pathJoin "A" "cover.jpg", [1])], false)
    ∧ Fs.lookup (download_cover [] "A" ⟨"u", 500, [9]⟩).1 (pathJoin "A" "cover.jpg")
        = some [9] :=
  ⟨(claim10_cover [(pathJoin "A" "cover.jpg", [1])] "A" ⟨"u", 500, [9]⟩).1 (by decide),
   ((claim10_cover [] "A" ⟨"u", 500, [9]⟩).2 (by decide)).2⟩

end Bugs
